import Mathlib

/-!
Verification of the checkpoint retention logic in the tutorial notebook
`6_SavingAndLoadingModels.ipynb`.

The notebook contains the following original logic:

* a `timestamp()` helper returning `time.strftime("%Y_%b_%d_%H_%M_%S")`,
  used to name checkpoint files `check_{timestamp()}.pth`;
* listing: `sorted(glob.glob("check_*.pth"))`;
* pruning: `for file in checkpoints[:-3]: os.remove(file)`;
* resuming: `torch.load(checkpoints[-1])`.

This file embeds that logic over explicit storage states (lists of file
names).  Strings are compared exactly as Python compares them: code point
by code point, lexicographically.  Python `sorted` is a stable ascending
sort; it is modelled by insertion sort, which computes the same function.
-/

namespace CheckpointRetention

/-- Code-point lexicographic `≤` on character lists, exactly the order
Python uses to compare strings. -/
def lexLeb : List Char → List Char → Bool
  | [], _ => true
  | _ :: _, [] => false
  | a :: as, b :: bs =>
    if a.toNat < b.toNat then true
    else if b.toNat < a.toNat then false
    else lexLeb as bs

/-- Code-point lexicographic `<` on character lists. -/
def lexLtb : List Char → List Char → Bool
  | [], [] => false
  | [], _ :: _ => true
  | _ :: _, [] => false
  | a :: as, b :: bs =>
    if a.toNat < b.toNat then true
    else if b.toNat < a.toNat then false
    else lexLtb as bs

/-- Python string comparison `a <= b` (code-point lexicographic). -/
def strLE (a b : String) : Prop := lexLeb a.data b.data = true

/-- Python string comparison `a < b` (code-point lexicographic). -/
def strLT (a b : String) : Prop := lexLtb a.data b.data = true

instance : DecidableRel strLE := fun _ _ => inferInstanceAs (Decidable (_ = true))

instance : DecidableRel strLT := fun _ _ => inferInstanceAs (Decidable (_ = true))

/-- Boolean check that `p` is an initial segment of `s`. -/
def beginsWith : List Char → List Char → Bool
  | [], _ => true
  | _ :: _, [] => false
  | a :: as, b :: bs => a == b && beginsWith as bs

/-- Boolean check that `p` is a final segment of `s`. -/
def endsWith (p s : List Char) : Bool := beginsWith p.reverse s.reverse

/-- Source: the glob pattern `check_*.pth` (from
`glob.glob("check_*.pth")`).  A name matches exactly when it starts with
`check_`, ends with `.pth`, and is long enough that the two fixed parts do
not overlap (the `*` matches the possibly empty middle). -/
def matchesGlob (name : String) : Bool :=
  beginsWith "check_".data name.data && endsWith ".pth".data name.data &&
    decide (10 ≤ name.data.length)

/-- Source: `sorted(glob.glob("check_*.pth"))` — the identifiers present in
`storage` that match the pattern, sorted ascending by Python string
comparison.  Being a function of the storage state alone, two calls on the
same state return the same sequence. -/
def listCheckpoints (storage : List String) : List String :=
  List.insertionSort strLE (storage.filter matchesGlob)

/-- Source: `checkpoints[:-3]` — the identifiers the pruning loop deletes.
Python slicing with a negative stop clamps at zero, which is exactly
truncated subtraction on `Nat`. -/
def pruneTargets (checkpoints : List String) : List String :=
  checkpoints.take (checkpoints.length - 3)

/-- Modelled from the spec: the general `prune(identifiers, keep_count)`
is not in the source, which hardcodes `keep_count = 3` in
`checkpoints[:-3]`; per the spec it removes every identifier except the
last `keep_count`.  This is the sequence removed. -/
def pruneRemoved (ids : List String) (keepCount : Nat) : List String :=
  ids.take (ids.length - keepCount)

/-- Modelled from the spec: the identifiers surviving
`prune(identifiers, keep_count)` — the last `keep_count` of the ascending
list. -/
def pruneKept (ids : List String) (keepCount : Nat) : List String :=
  ids.drop (ids.length - keepCount)

/-- Modelled from the spec: `prune` with its call-time validation; a
negative `keep_count` is rejected with an invalid-configuration error
before any deletion happens (an error result performs no deletion), and
otherwise the removed and kept sequences are returned. -/
def prune (ids : List String) (keepCount : Int) : Except String (List String × List String) :=
  if keepCount < 0 then Except.error "invalid configuration"
  else Except.ok (pruneRemoved ids keepCount.toNat, pruneKept ids keepCount.toNat)

/-- Source: `os.remove(file)` — deletes `file` from storage; Python raises
`FileNotFoundError` when the file does not exist. -/
def osRemove (storage : List String) (file : String) : Except String (List String) :=
  if file ∈ storage then Except.ok (storage.erase file)
  else Except.error "FileNotFoundError"

/-- Source: the body of the pruning loop — remove each listed file in
order, stopping with the exception if a removal fails. -/
def removeAll (storage : List String) : List String → Except String (List String)
  | [] => Except.ok storage
  | f :: fs =>
    match osRemove storage f with
    | Except.error e => Except.error e
    | Except.ok s' => removeAll s' fs

/-- Source: `for file in checkpoints[:-3]: os.remove(file)` run against a
storage state.  The `checkpoints` list was obtained by an earlier listing
and may be stale with respect to `storage`. -/
def pruneFS (checkpoints storage : List String) : Except String (List String) :=
  removeAll storage (pruneTargets checkpoints)

/-- Source: the complete pruning cell — list the checkpoints in `storage`
and delete all but the newest three. -/
def pruneStorage (storage : List String) : Except String (List String) :=
  pruneFS (listCheckpoints storage) storage

/-- Source: `torch.load(checkpoints[-1])` — Python indexing `[-1]` returns
the last element and raises `IndexError` on an empty list. -/
def latest (checkpoints : List String) : Except String String :=
  match checkpoints.getLast? with
  | some c => Except.ok c
  | none => Except.error "IndexError: list index out of range"

/-- Modelled from the spec: the storage collaborator `put(id, bytes)`.
The payload serialization done by `torch.save` belongs to the external
framework; the store itself maps identifiers to opaque payloads. -/
def storePut {α : Type} (store : List (String × α)) (id : String) (payload : α) :
    List (String × α) :=
  (id, payload) :: store

/-- Modelled from the spec: the storage collaborator `get(id)`, as used by
`torch.load`. -/
def storeGet {α : Type} (store : List (String × α)) (id : String) : Option α :=
  store.lookup id

/-- Source: the fields of `time.localtime()` used by the notebook
`timestamp()` helper (month `mon` is 1 to 12). -/
structure TimeStruct where
  year : Nat
  mon : Nat
  mday : Nat
  hour : Nat
  minute : Nat
  sec : Nat

/-- Source: the `%b` directive of `time.strftime` — the abbreviated month
name in the C locale. -/
def monthAbbrev : Nat → String
  | 1 => "Jan"
  | 2 => "Feb"
  | 3 => "Mar"
  | 4 => "Apr"
  | 5 => "May"
  | 6 => "Jun"
  | 7 => "Jul"
  | 8 => "Aug"
  | 9 => "Sep"
  | 10 => "Oct"
  | 11 => "Nov"
  | 12 => "Dec"
  | _ => ""

/-- Zero padding to two digits, as in the `%d`, `%H`, `%M`, `%S`
directives of `time.strftime`. -/
def pad2 (n : Nat) : String := if n < 10 then "0" ++ toString n else toString n

/-- Source: `time.strftime("%Y_%b_%d_%H_%M_%S", t)` from the notebook
`timestamp()` function. -/
def timestamp (t : TimeStruct) : String :=
  toString t.year ++ "_" ++ monthAbbrev t.mon ++ "_" ++ pad2 t.mday ++ "_" ++
    pad2 t.hour ++ "_" ++ pad2 t.minute ++ "_" ++ pad2 t.sec

/-- Source: the checkpoint file name `f"check_{timestamp()}.pth"`. -/
def checkpointName (t : TimeStruct) : String := "check_" ++ timestamp t ++ ".pth"

/-- Chronological (creation) order on broken-down times. -/
def chronoLtb (a b : TimeStruct) : Bool :=
  if a.year ≠ b.year then decide (a.year < b.year)
  else if a.mon ≠ b.mon then decide (a.mon < b.mon)
  else if a.mday ≠ b.mday then decide (a.mday < b.mday)
  else if a.hour ≠ b.hour then decide (a.hour < b.hour)
  else if a.minute ≠ b.minute then decide (a.minute < b.minute)
  else decide (a.sec < b.sec)

/-! ## Order-theoretic facts about the Python string comparison -/

theorem lexLeb_trans {a b c : List Char} (h₁ : lexLeb a b = true)
    (h₂ : lexLeb b c = true) : lexLeb a c = true := by
  induction a generalizing b c with
  | nil => simp [lexLeb]
  | cons a as ih =>
    cases b with
    | nil => simp [lexLeb] at h₁
    | cons b bs =>
      cases c with
      | nil => simp [lexLeb] at h₂
      | cons c cs =>
        simp only [lexLeb] at h₁ h₂ ⊢
        split_ifs at h₁ h₂ ⊢ <;> first | rfl | omega | exact ih h₁ h₂

theorem lexLeb_total (a b : List Char) : lexLeb a b = true ∨ lexLeb b a = true := by
  induction a generalizing b with
  | nil => left; simp [lexLeb]
  | cons a as ih =>
    cases b with
    | nil => right; simp [lexLeb]
    | cons b bs =>
      simp only [lexLeb]
      rcases ih bs with h | h <;> split_ifs <;> first | simp | omega | simp [h]

instance : IsTrans String strLE := ⟨fun _ _ _ => lexLeb_trans⟩

instance : IsTotal String strLE := ⟨fun a b => lexLeb_total a.data b.data⟩

/-- The pruning loop of the source is exactly the spec-level `pruneRemoved`
instantiated at `keep_count = 3`. -/
theorem pruneTargets_eq_pruneRemoved_three (checkpoints : List String) :
    pruneTargets checkpoints = pruneRemoved checkpoints 3 := rfl

/-- Running the deletion loop over a duplicate-free storage that contains
every listed file succeeds, and the result holds exactly the files that
were not listed for deletion. -/
theorem removeAll_spec (targets : List String) :
    ∀ storage : List String, storage.Nodup → targets.Nodup →
      (∀ t ∈ targets, t ∈ storage) →
      ∃ s', removeAll storage targets = Except.ok s' ∧ s'.Nodup ∧
        ∀ x, x ∈ s' ↔ x ∈ storage ∧ x ∉ targets := by
  induction targets with
  | nil =>
    intro storage hs _ _
    exact ⟨storage, rfl, hs, by simp⟩
  | cons t ts ih =>
    intro storage hs ht hsub
    have htm : t ∈ storage := hsub t (List.mem_cons_self t ts)
    have h1 : osRemove storage t = Except.ok (storage.erase t) := by
      rw [osRemove, if_pos htm]
    have hs' : (storage.erase t).Nodup := hs.erase t
    obtain ⟨hnt, hts⟩ := List.nodup_cons.mp ht
    have hsub' : ∀ u ∈ ts, u ∈ storage.erase t := by
      intro u hu
      have hus : u ∈ storage := hsub u (List.mem_cons_of_mem t hu)
      have hne : u ≠ t := fun h => hnt (h ▸ hu)
      exact (hs.mem_erase_iff).mpr ⟨hne, hus⟩
    obtain ⟨s', hrun, hnd', hmem'⟩ := ih (storage.erase t) hs' hts hsub'
    refine ⟨s', ?_, hnd', ?_⟩
    · simp only [removeAll, h1]
      exact hrun
    · intro x
      rw [hmem' x, hs.mem_erase_iff]
      constructor
      · rintro ⟨⟨hne, hx⟩, hnx⟩
        refine ⟨hx, ?_⟩
        simp only [List.mem_cons, not_or]
        exact ⟨hne, hnx⟩
      · rintro ⟨hx, hnx⟩
        simp only [List.mem_cons, not_or] at hnx
        exact ⟨⟨hnx.1, hx⟩, hnx.2⟩

/-- Sample ascending identifier list used by the spec scenarios. -/
def fiveIds : List String :=
  ["check_0001", "check_0002", "check_0003", "check_0004", "check_0005"]

/-! ## Claim theorems -/

/-- C1: for every ascending list of `n` identifiers and every non-negative
`keep_count`, prune removes exactly `max(0, n - keep_count)` identifiers,
namely the `n - keep_count` lexicographically smallest (every removed
identifier is below every kept one), removed and kept together restore the
list, nothing is removed when `keep_count ≥ n`, and everything is removed
when `keep_count = 0`. -/
theorem prune_removes_oldest_count (ids : List String) (k : Nat)
    (hsorted : List.Sorted strLE ids) :
    (pruneRemoved ids k).length = ids.length - k ∧
    pruneRemoved ids k ++ pruneKept ids k = ids ∧
    (∀ x ∈ pruneRemoved ids k, ∀ y ∈ pruneKept ids k, strLE x y) ∧
    (ids.length ≤ k → pruneRemoved ids k = []) ∧
    (k = 0 → pruneRemoved ids k = ids) ∧
    prune ids (Int.ofNat k) = Except.ok (pruneRemoved ids k, pruneKept ids k) := by
  refine ⟨?_, List.take_append_drop _ _, ?_, ?_, ?_, ?_⟩
  · rw [pruneRemoved, List.length_take]
    omega
  · have h2 : List.Pairwise strLE
        (List.take (ids.length - k) ids ++ List.drop (ids.length - k) ids) := by
      rw [List.take_append_drop]
      exact hsorted
    simp only [pruneRemoved, pruneKept]
    exact (List.pairwise_append.mp h2).2.2
  · intro hk
    have h0 : ids.length - k = 0 := by omega
    rw [pruneRemoved, h0, List.take_zero]
  · intro hk
    rw [pruneRemoved, hk, Nat.sub_zero, List.take_length]
  · have h' : ¬ Int.ofNat k < 0 := by exact Int.not_lt.mpr (Int.ofNat_nonneg k)
    rw [prune, if_neg h']
    rfl

/-- Witness for C1 at the spec scenario: five checkpoints, keep three. -/
theorem prune_removes_oldest_count_check :
    List.Sorted strLE fiveIds ∧
    ((pruneRemoved fiveIds 3).length = fiveIds.length - 3 ∧
      pruneRemoved fiveIds 3 ++ pruneKept fiveIds 3 = fiveIds ∧
      (∀ x ∈ pruneRemoved fiveIds 3, ∀ y ∈ pruneKept fiveIds 3, strLE x y) ∧
      (fiveIds.length ≤ 3 → pruneRemoved fiveIds 3 = []) ∧
      (3 = 0 → pruneRemoved fiveIds 3 = fiveIds) ∧
      prune fiveIds (Int.ofNat 3) =
        Except.ok (pruneRemoved fiveIds 3, pruneKept fiveIds 3)) :=
  ⟨by decide, prune_removes_oldest_count fiveIds 3 (by decide)⟩

/-- C2: the naming scheme of the source does NOT sort lexicographically in
creation order.  The `%b` directive renders the month as a name, and month
names are not alphabetically ordered by date: a checkpoint created on
January 15, 2021 gets a lexicographically larger name than one created
months later on April 1, 2021, so ascending lexicographic order differs
from chronological order and pruning can delete the newest checkpoint. -/
theorem checkpointName_breaks_lexicographic_order :
    chronoLtb ⟨2021, 1, 15, 12, 0, 0⟩ ⟨2021, 4, 1, 12, 0, 0⟩ = true ∧
    checkpointName ⟨2021, 1, 15, 12, 0, 0⟩ = "check_2021_Jan_15_12_00_00.pth" ∧
    checkpointName ⟨2021, 4, 1, 12, 0, 0⟩ = "check_2021_Apr_01_12_00_00.pth" ∧
    strLT (checkpointName ⟨2021, 4, 1, 12, 0, 0⟩)
      (checkpointName ⟨2021, 1, 15, 12, 0, 0⟩) := by
  decide

/-- C3 counterexample: on an empty identifier list the source expression
`checkpoints[-1]` raises `IndexError` — an exception, not a quiet
no-checkpoint signal. -/
theorem latest_empty_is_exception :
    latest ([] : List String) = Except.error "IndexError: list index out of range" := rfl

/-- C3 amended: `latest` on an empty list raises an index error; on any
non-empty list it returns the last element. -/
theorem latest_behavior (ids : List String) :
    (ids = [] → latest ids = Except.error "IndexError: list index out of range") ∧
    ∀ h : ids ≠ [], latest ids = Except.ok (ids.getLast h) := by
  constructor
  · rintro rfl
    rfl
  · intro h
    unfold latest
    rw [List.getLast?_eq_getLast ids h]

/-- Witness for C3 on the spec example list. -/
theorem latest_behavior_check :
    latest ["check_0001", "check_0002"] = Except.ok "check_0002" :=
  ((latest_behavior ["check_0001", "check_0002"]).2 (by decide)).trans rfl

/-- C4 counterexample: a prune run against a stale listing whose oldest
entry was already removed from storage raises `FileNotFoundError` instead
of completing as a no-op. -/
theorem prune_stale_listing_errors :
    pruneFS ["check_0001.pth", "check_0002.pth", "check_0003.pth", "check_0004.pth"]
      ["check_0002.pth", "check_0003.pth", "check_0004.pth"] =
    Except.error "FileNotFoundError" := rfl

/-- C4 amended: deleting an identifier that no longer exists in storage
raises `FileNotFoundError` (the source calls `os.remove` with no handler),
rather than being swallowed as a no-op. -/
theorem osRemove_missing_raises (storage : List String) (file : String)
    (h : file ∉ storage) :
    osRemove storage file = Except.error "FileNotFoundError" := by
  rw [osRemove, if_neg h]

/-- Witness for C4 at a concrete missing file. -/
theorem osRemove_missing_raises_check :
    "check_0001.pth" ∉ ([] : List String) ∧
    osRemove [] "check_0001.pth" = Except.error "FileNotFoundError" :=
  ⟨by decide, osRemove_missing_raises [] "check_0001.pth" (by decide)⟩

/-- C5: prune is idempotent — applied to the surviving identifiers with
the same `keep_count` it removes nothing and keeps everything, and the
survivors are exactly the newest `min keep_count n` identifiers (a final
segment of the ascending list of the right length). -/
theorem prune_idempotent (ids : List String) (k : Nat) :
    pruneRemoved (pruneKept ids k) k = [] ∧
    pruneKept (pruneKept ids k) k = pruneKept ids k ∧
    (pruneKept ids k).length = min k ids.length ∧
    pruneKept ids k <:+ ids := by
  refine ⟨?_, ?_, ?_, List.drop_suffix _ _⟩
  · simp only [pruneRemoved, pruneKept, List.length_drop]
    rw [show ids.length - (ids.length - k) - k = 0 from by omega, List.take_zero]
  · simp only [pruneKept, List.length_drop]
    rw [show ids.length - (ids.length - k) - k = 0 from by omega, List.drop_zero]
  · simp only [pruneKept, List.length_drop]
    omega

/-- C6: a negative `keep_count` is rejected at call time with the
invalid-configuration error, and the error return performs no deletion. -/
theorem prune_rejects_negative_keepCount (ids : List String) (k : Int) (h : k < 0) :
    prune ids k = Except.error "invalid configuration" := by
  rw [prune, if_pos h]

/-- Witness for C6 at `keep_count = -1`. -/
theorem prune_rejects_negative_keepCount_check :
    ((-1 : Int) < 0) ∧
    prune ["check_0001"] (-1) = Except.error "invalid configuration" :=
  ⟨by decide, prune_rejects_negative_keepCount ["check_0001"] (-1) (by decide)⟩

/-- C7: for a fixed storage state, `listCheckpoints` returns exactly the
pattern-matching identifiers sorted ascending; it is a pure function of
the state (hence deterministic), and empty storage yields the empty
sequence rather than an error. -/
theorem listCheckpoints_sorted_and_total (storage : List String) :
    List.Sorted strLE (listCheckpoints storage) ∧
    (∀ x, x ∈ listCheckpoints storage ↔ x ∈ storage ∧ matchesGlob x = true) ∧
    listCheckpoints [] = [] := by
  refine ⟨List.sorted_insertionSort strLE _, ?_, rfl⟩
  intro x
  rw [listCheckpoints, List.mem_insertionSort, List.mem_filter]

/-- C8: saving a payload and loading the same identifier with no
intervening prune returns exactly that payload. -/
theorem store_roundtrip {α : Type} (store : List (String × α)) (id : String) (p : α) :
    storeGet (storePut store id p) id = some p := by
  simp [storeGet, storePut, List.lookup]

/-- C9: prune only deletes artifacts matching the `check_*.pth` pattern;
on a duplicate-free storage it succeeds, and every artifact whose name
does not match the pattern is still present afterwards. -/
theorem prune_preserves_nonmatching (storage : List String) (name : String)
    (hnd : storage.Nodup) (hmem : name ∈ storage)
    (hmatch : matchesGlob name = false) :
    ∃ s', pruneStorage storage = Except.ok s' ∧ name ∈ s' := by
  have hperm := List.perm_insertionSort strLE (storage.filter matchesGlob)
  have hLnd : (listCheckpoints storage).Nodup :=
    (hperm.nodup_iff).mpr (hnd.filter matchesGlob)
  have htnd : (pruneTargets (listCheckpoints storage)).Nodup :=
    List.Nodup.sublist (List.take_sublist _ _) hLnd
  have hsub : ∀ t ∈ pruneTargets (listCheckpoints storage), t ∈ storage := by
    intro t htk
    have hL : t ∈ listCheckpoints storage := List.take_subset _ _ htk
    exact (List.mem_filter.mp ((List.mem_insertionSort strLE).mp hL)).1
  obtain ⟨s', hrun, _, hmem'⟩ := removeAll_spec _ storage hnd htnd hsub
  refine ⟨s', hrun, (hmem' name).mpr ⟨hmem, fun hcon => ?_⟩⟩
  have hL : name ∈ listCheckpoints storage := List.take_subset _ _ hcon
  have hm := (List.mem_filter.mp ((List.mem_insertionSort strLE).mp hL)).2
  rw [hmatch] at hm
  exact Bool.false_ne_true hm

/-- Witness for C9: a non-matching artifact survives a concrete prune. -/
theorem prune_preserves_nonmatching_check :
    (["model.pth", "check_0001.pth", "check_0002.pth", "check_0003.pth",
      "check_0004.pth"] : List String).Nodup ∧
    "model.pth" ∈ (["model.pth", "check_0001.pth", "check_0002.pth",
      "check_0003.pth", "check_0004.pth"] : List String) ∧
    matchesGlob "model.pth" = false ∧
    ∃ s', pruneStorage ["model.pth", "check_0001.pth", "check_0002.pth",
      "check_0003.pth", "check_0004.pth"] = Except.ok s' ∧ "model.pth" ∈ s' :=
  ⟨by decide, by decide, by decide,
    prune_preserves_nonmatching _ _ (by decide) (by decide) (by decide)⟩

/-- C10: the identifiers removed by prune form an initial segment of the
ascending input list, and that removed sequence is itself sorted
ascending — deletions proceed from oldest to newest. -/
theorem pruneRemoved_ascending_from_oldest (ids : List String) (k : Nat)
    (hsorted : List.Sorted strLE ids) :
    pruneRemoved ids k <+: ids ∧ List.Sorted strLE (pruneRemoved ids k) :=
  ⟨ List.take_prefix _ _, List.Pairwise.sublist (List.take_sublist _ _) hsorted⟩

/-- Witness for C10 at the spec scenario list with `keep_count = 3`. -/
theorem pruneRemoved_ascending_from_oldest_check :
    List.Sorted strLE fiveIds ∧
    (pruneRemoved fiveIds 3 <+: fiveIds ∧ List.Sorted strLE (pruneRemoved fiveIds 3)) :=
  ⟨by decide, pruneRemoved_ascending_from_oldest fiveIds 3 (by decide)⟩

end CheckpointRetention
